import Mathlib

/-!
Verification development for the Domcraft chunked-terrain engine
(src/world/chunk.rs, src/world/chunkedterrain.rs).

The Rust code is shallowly embedded: each Rust function becomes a pure
Lean function over explicit state; a `panic!`/`unwrap` failure is
modelled as `none` of an `Option` result.  Machine integers are `Int`
(i32 arithmetic in this code never overflows in the scenarios
considered); Rust `/` on `i32` is truncated division, i.e. `Int.tdiv`.
`block.rs` and `chunk_worker_pool.rs` are not part of the sources; the
few items from them that are needed (the `Block` material enum, the
side order of `BlockSide::try_from`, the 6-bit visibility record and
the task kinds) are modelled from the spec and from their visible use
sites, and are marked as such.
-/

set_option autoImplicit false
set_option maxRecDepth 16000

namespace Domcraft

/-! ### Cell state machine (chunk.rs lines 32..51) -/

/-- The pipeline stage of a chunk (`ChunkStateStage`, chunk.rs 38..43). -/
inductive ChunkStateStage where
  | ChunkGen
  | ChunkVisGen
  | MeshGen
  | Ready
deriving DecidableEq

/-- The concurrency-reservation progress of a chunk
(`ChunkStateProgress`, chunk.rs 46..51).  `Waiting` is what the spec
calls `Idle`, `TaskAssigned` is `Assigned`, `SwitchingTo` is
`RedirectTo`. -/
inductive ChunkStateProgress where
  | Waiting
  | TaskAssigned
  | Processing
  | SwitchingTo (t : ChunkStateStage)
deriving DecidableEq

/-- The lock-protected `{stage, progress}` record (`ChunkState`, chunk.rs 32..35). -/
structure ChunkState where
  stage : ChunkStateStage
  progress : ChunkStateProgress
deriving DecidableEq

/-- `Chunk::assign_if_waiting` (chunk.rs 201..210): reserve the chunk
for dispatch if its progress is `Waiting`; returns whether the
reservation succeeded together with the updated state. -/
def assignIfWaiting (s : ChunkState) : Bool × ChunkState :=
  match s.progress with
  | .Waiting => (true, { s with progress := .TaskAssigned })
  | _ => (false, s)

/-- `Chunk::start_process_check` (chunk.rs 81..101).  `none` models the
two `panic!` branches (wrong stage, or progress still `Waiting`);
`some (b, s)` returns the proceed/skip flag and the updated state. -/
def startProcessCheck (expected : ChunkStateStage) (s : ChunkState) :
    Option (Bool × ChunkState) :=
  if s.stage = expected then
    match s.progress with
    | .Waiting => none
    | .TaskAssigned => some (true, { s with progress := .Processing })
    | .Processing => some (false, s)
    | .SwitchingTo t => some (false, { stage := t, progress := .Waiting })
  else none

/-- `Chunk::end_process_check` (chunk.rs 103..122).  The `Bool` in the
result records whether the `success` closure was run (the commit case);
`none` models the `panic!` branches. -/
def endProcessCheck (current next : ChunkStateStage) (s : ChunkState) :
    Option (Bool × ChunkState) :=
  if s.stage = current then
    match s.progress with
    | .Processing => some (true, { stage := next, progress := .Waiting })
    | .SwitchingTo t => some (false, { stage := t, progress := .Waiting })
    | _ => none
  else none

/-! ### C1: interleavings of the guard operations

A cell is modelled together with the number of tasks currently holding
the `Processing` reservation, i.e. tasks that are between a successful
`start_process_check` (which returned `true`) and the matching
`end_process_check`.  Each guard runs under the state mutex, so an
interleaving is a sequence of atomic guard steps. -/

/-- One atomic guard step on a cell.  The `Nat` component counts the
tasks currently between a successful start guard and the matching end
guard.  A step is only available when the corresponding Rust call does
not panic. -/
inductive CellStep : ChunkState × Nat → ChunkState × Nat → Prop where
  | assign (s : ChunkState) (h : Nat) (s' : ChunkState) :
      assignIfWaiting s = (true, s') → CellStep (s, h) (s', h)
  | startProceed (e : ChunkStateStage) (s : ChunkState) (h : Nat) (s' : ChunkState) :
      startProcessCheck e s = some (true, s') → CellStep (s, h) (s', h + 1)
  | startSkip (e : ChunkStateStage) (s : ChunkState) (h : Nat) (s' : ChunkState) :
      startProcessCheck e s = some (false, s') → CellStep (s, h) (s', h)
  | endStep (cur nxt : ChunkStateStage) (s : ChunkState) (h : Nat)
      (b : Bool) (s' : ChunkState) :
      endProcessCheck cur nxt s = some (b, s') → CellStep (s, h + 1) (s', h)

/-- States reachable from a freshly constructed chunk
(`Chunk::new`, chunk.rs 66..78: stage `ChunkGen`, progress `Waiting`,
no task holding the cell). -/
inductive ReachableCell : ChunkState × Nat → Prop where
  | init : ReachableCell (⟨.ChunkGen, .Waiting⟩, 0)
  | step {a b : ChunkState × Nat} : ReachableCell a → CellStep a b → ReachableCell b

/-- The inductive invariant: the holder count is exactly one when the
progress is `Processing` and zero otherwise. -/
theorem reachableCell_invariant (a : ChunkState × Nat) (ha : ReachableCell a) :
    a.2 ≤ 1 ∧ (a.2 = 1 ↔ a.1.progress = .Processing) := by
  induction ha with
  | init => simp
  | step _ hstep ih =>
    obtain ⟨hle, hiff⟩ := ih
    cases hstep with
    | assign s h s' heq =>
      obtain ⟨st, pr⟩ := s
      cases pr <;> simp [assignIfWaiting] at heq
      · subst heq
        simp_all
    | startProceed e s h s' heq =>
      obtain ⟨st, pr⟩ := s
      by_cases hst : st = e
      · subst hst
        cases pr <;> simp [startProcessCheck] at heq
        · subst heq
          simp_all
          omega
      · simp [startProcessCheck, hst] at heq
    | startSkip e s h s' heq =>
      obtain ⟨st, pr⟩ := s
      by_cases hst : st = e
      · subst hst
        cases pr <;> simp [startProcessCheck] at heq
        · subst heq
          simp_all
        · subst heq
          simp_all
      · simp [startProcessCheck, hst] at heq
    | endStep cur nxt s h b s' heq =>
      obtain ⟨st, pr⟩ := s
      by_cases hst : st = cur
      · subst hst
        cases pr <;> simp [endProcessCheck] at heq
        · obtain ⟨hb, hs⟩ := heq
          subst hs
          simp_all
        · obtain ⟨hb, hs⟩ := heq
          subst hs
          simp_all
      · simp [endProcessCheck, hst] at heq

/-- C1: under any interleaving of `assign_if_waiting`,
`start_process_check` and `end_process_check` steps from a fresh cell,
at most one task is between a successful start guard (`proceed`) and
the matching end guard on that cell at any instant: the `Processing`
reservation is held by at most one task. -/
theorem chunk_processing_at_most_one (s : ChunkState) (h : Nat)
    (hr : ReachableCell (s, h)) : h ≤ 1 :=
  (reachableCell_invariant (s, h) hr).1

/-- Witness for C1 at a concrete reachable state: assign the fresh
cell, let the task pass the start guard, and observe a single holder. -/
theorem chunk_processing_at_most_one_holds : (1 : Nat) ≤ 1 :=
  chunk_processing_at_most_one ⟨.ChunkGen, .Processing⟩ 1
    (ReachableCell.step
      (ReachableCell.step ReachableCell.init
        (CellStep.assign ⟨.ChunkGen, .Waiting⟩ 0 ⟨.ChunkGen, .TaskAssigned⟩ rfl))
      (CellStep.startProceed .ChunkGen ⟨.ChunkGen, .TaskAssigned⟩ 0
        ⟨.ChunkGen, .Processing⟩ rfl))

/-- C5: the start guard of every stage method behaves exactly as
specified: a stage different from the caller's expected stage is a
fault (panic, modelled `none`); progress `Waiting` (the spec's `Idle`)
is a fault; `TaskAssigned` transitions to `Processing` and proceeds;
`Processing` skips leaving the state unchanged; `SwitchingTo t`
(the spec's `RedirectTo`) sets the stage to `t`, the progress to
`Waiting`, and skips without running the stage body. -/
theorem start_guard_cases (e : ChunkStateStage) (s : ChunkState) :
    (s.stage ≠ e → startProcessCheck e s = none) ∧
    (s.stage = e → s.progress = .Waiting → startProcessCheck e s = none) ∧
    (s.stage = e → s.progress = .TaskAssigned →
      startProcessCheck e s = some (true, ⟨e, .Processing⟩)) ∧
    (s.stage = e → s.progress = .Processing →
      startProcessCheck e s = some (false, s)) ∧
    (∀ t, s.stage = e → s.progress = .SwitchingTo t →
      startProcessCheck e s = some (false, ⟨t, .Waiting⟩)) := by
  obtain ⟨st, pr⟩ := s
  refine ⟨?_, ?_, ?_, ?_, ?_⟩
  · intro hne
    simp only [ChunkState.stage] at hne
    simp [startProcessCheck, hne]
  · intro he hp
    simp only [ChunkState.stage] at he
    simp only [ChunkState.progress] at hp
    subst he
    subst hp
    simp [startProcessCheck]
  · intro he hp
    simp only [ChunkState.stage] at he
    simp only [ChunkState.progress] at hp
    subst he
    subst hp
    simp [startProcessCheck]
  · intro he hp
    simp only [ChunkState.stage] at he
    simp only [ChunkState.progress] at hp
    subst he
    subst hp
    simp [startProcessCheck]
  · intro t he hp
    simp only [ChunkState.stage] at he
    simp only [ChunkState.progress] at hp
    subst he
    subst hp
    simp [startProcessCheck]

/-- Witness for C5 at a concrete state: an assigned cell at the
expected stage proceeds into `Processing`. -/
theorem start_guard_cases_concrete :
    startProcessCheck .ChunkGen ⟨.ChunkGen, .TaskAssigned⟩ =
      some (true, ⟨.ChunkGen, .Processing⟩) :=
  (start_guard_cases .ChunkGen ⟨.ChunkGen, .TaskAssigned⟩).2.2.1 rfl rfl

/-! ### Blocks and terrain generation (chunk.rs 124..199) -/

/-- A 3D integer vector (`[i32; 3]` in the source: chunk ids, block
positions). -/
structure I3 where
  x : Int
  y : Int
  z : Int
deriving DecidableEq

/-- `CHUNK_SIZE` (chunkedterrain.rs 8). -/
def CHUNK_SIZE : Nat := 16

/-- `HEIGHTMAP_SIZE` (chunkedterrain.rs 9). -/
def HEIGHTMAP_SIZE : Nat := CHUNK_SIZE * CHUNK_SIZE

/-- `CHUNK_LENGTH` (chunkedterrain.rs 10). -/
def CHUNK_LENGTH : Nat := HEIGHTMAP_SIZE * CHUNK_SIZE

/-- The block materials.  The constructors `Air`, `Grass` and `Stone`
are the ones produced by `Chunk::gen` (chunk.rs 145..157); the enum
itself lives in the absent `block.rs`. -/
inductive Block where
  | Air
  | Grass
  | Stone
deriving DecidableEq

/-- Modelled from the spec: `Block::is_translucent` from the absent
`block.rs`.  Per spec 4.2, a face is visible when the neighbouring
voxel is "absent/empty/translucent"; `Air` is the empty block, the
solid materials are opaque. -/
def Block.is_translucent : Block → Bool
  | .Air => true
  | _ => false

/-- The flat index of chunk-relative position `(x, y, z)` into the
block vector (`x * CHUNK_SIZE * CHUNK_SIZE + y * CHUNK_SIZE + z`,
chunk.rs 172). -/
def blockIndex (x y z : Nat) : Nat :=
  x * CHUNK_SIZE * CHUNK_SIZE + y * CHUNK_SIZE + z

/-- `block_iterator()` (chunk.rs 377..379): `iproduct!` over the chunk
range three times, i.e. x-major, then y, then z. -/
def blockIter : List (Nat × Nat × Nat) :=
  (List.range CHUNK_SIZE).flatMap fun x =>
    (List.range CHUNK_SIZE).flatMap fun y =>
      (List.range CHUNK_SIZE).map fun z => (x, y, z)

/-- `Chunk::get_block_at` (chunk.rs 169..177): the chunk's block
vector is `none` until generated; a chunk-relative position outside
`0..CHUNK_SIZE` yields `none`. -/
def getBlockAt (blocks : Option (List Block)) (x y z : Int) : Option Block :=
  match blocks with
  | none => none
  | some bs =>
    if 0 ≤ x ∧ x < 16 ∧ 0 ≤ y ∧ y < 16 ∧ 0 ≤ z ∧ z < 16 then
      bs.get? (blockIndex x.toNat y.toNat z.toNat)
    else none

/-- `SurfaceHeightmap` (`[i32; HEIGHTMAP_SIZE]`, chunkedterrain.rs 13)
as a total map from the flat horizontal index. -/
def SurfaceHeightmap : Type := Nat → Int

/-- The classification of one voxel in `Chunk::gen` (chunk.rs
135..159).  `noise` is the Perlin field, a pure function sampled at the
absolute position divided by `60.0`; `chunkPos` is the chunk id scaled
by `CHUNK_SIZE`. -/
def genBlockAt (noise : Rat × Rat × Rat → Rat) (hm : SurfaceHeightmap)
    (chunkPos : I3) (x y z : Nat) : Block :=
  let surfaceLevel := hm (x * CHUNK_SIZE + z)
  let ax : Int := chunkPos.x + (x : Int)
  let ay : Int := chunkPos.y + (y : Int)
  let az : Int := chunkPos.z + (z : Int)
  if ay > surfaceLevel then .Air
  else
    let noiseValue := noise ((ax : Rat) / 60, (ay : Rat) / 60, (az : Rat) / 60)
    let isCave := noiseValue > 0.5
    if isCave then .Air
    else if ay = surfaceLevel then .Grass
    else .Stone

/-- The block vector computed by `Chunk::gen` (chunk.rs 129..160):
one block per `block_iterator()` position, pushed in order. -/
def genBlocks (noise : Rat × Rat × Rat → Rat) (hm : SurfaceHeightmap)
    (chunkId : I3) : List Block :=
  let chunkPos : I3 := ⟨chunkId.x * 16, chunkId.y * 16, chunkId.z * 16⟩
  blockIter.map fun q => genBlockAt noise hm chunkPos q.1 q.2.1 q.2.2

/-! ### C3: the end guard and the stored data (chunk.rs 124..166) -/

/-- A 6-bit face-visibility record.  Modelled from the spec
(`BlockSideVisibility` lives in the absent `block.rs`): one bit per
`BlockSide`, in the order Right, Left, Above, Below, Back, Front fixed
by `ADJACENT_OFFSETS` (chunk.rs 12..19) and the `rel_pos` match
(chunk.rs 237..244). -/
structure SideVis where
  right : Bool
  left : Bool
  above : Bool
  below : Bool
  back : Bool
  front : Bool
deriving DecidableEq

/-- The full mutable contents of a `Chunk` (chunk.rs 23..29), with the
GPU mesh abstracted to the list of visibility records it is built
from. -/
structure ChunkFull where
  chunk_id : I3
  blocks : Option (List Block)
  block_vis : Option (List SideVis)
  state : ChunkState
deriving DecidableEq

/-- `Chunk::gen` (chunk.rs 124..166) as a state transformer, with the
cross-thread interference point made explicit: `interruptTo = some t`
means another thread set `progress := SwitchingTo t` while the task was
processing (between the start guard and the end guard).  Faithful to
the source, the computed block vector is stored at chunk.rs line 162,
BEFORE `end_process_check` runs (the source comments "Should move
inside success function but oh well"); the success closure at line 163
is empty.  `none` models a panic in either guard. -/
def genWithInterrupt (noise : Rat × Rat × Rat → Rat) (hm : SurfaceHeightmap)
    (interruptTo : Option ChunkStateStage) (c : ChunkFull) : Option ChunkFull :=
  match startProcessCheck .ChunkGen c.state with
  | none => none
  | some (false, s1) => some { c with state := s1 }
  | some (true, s1) =>
    let sMid : ChunkState :=
      match interruptTo with
      | none => s1
      | some t => { stage := s1.stage, progress := .SwitchingTo t }
    let bs := genBlocks noise hm c.chunk_id
    let c1 : ChunkFull := { c with blocks := some bs, state := sMid }
    match endProcessCheck .ChunkGen .ChunkVisGen c1.state with
    | none => none
    | some (_, s2) => some { c1 with state := s2 }

/-- A constant-zero noise field, used for concrete evaluations. -/
def noiseZero : Rat × Rat × Rat → Rat := fun _ => 0

/-- A constant-zero heightmap, used for concrete evaluations. -/
def hmZero : SurfaceHeightmap := fun _ => 0

/-- A freshly created, task-assigned chunk at the origin with no data
stored yet (the input of the C3 failing run). -/
def cGenInput : ChunkFull :=
  { chunk_id := ⟨0, 0, 0⟩, blocks := none, block_vis := none,
    state := ⟨.ChunkGen, .TaskAssigned⟩ }

/-- C3 fails on the code: run `Chunk::gen` on a task-assigned cell
whose progress is switched to `SwitchingTo ChunkGen` mid-processing.
The end guard observes the redirect (the final state is
`⟨ChunkGen, Waiting⟩`, which only the `SwitchingTo` branch produces;
the commit branch would give stage `ChunkVisGen`), yet the stored
block vector has been overwritten from `none` to `some _` — the
just-computed result is NOT discarded as the claim requires. -/
theorem gen_redirect_overwrites_blocks_eval :
    ((genWithInterrupt noiseZero hmZero (some .ChunkGen) cGenInput).map
        fun c => (c.blocks.isSome, c.state)) =
      some (true, (⟨.ChunkGen, .Waiting⟩ : ChunkState)) ∧
    cGenInput.blocks = none := by
  constructor
  · rfl
  · rfl

/-! ### C7: face visibility (chunk.rs 180..199 and 213..265) -/

/-- `ADJACENT_OFFSETS` (chunk.rs 12..19), indexed by the `BlockSide`
order Right, Left, Above, Below, Back, Front (the order of the absent
`block.rs` enum, fixed by the `rel_pos` match at chunk.rs 237..244). -/
def sideOffset (i : Fin 6) : I3 :=
  match i with
  | 0 => ⟨1, 0, 0⟩
  | 1 => ⟨-1, 0, 0⟩
  | 2 => ⟨0, 1, 0⟩
  | 3 => ⟨0, -1, 0⟩
  | 4 => ⟨0, 0, 1⟩
  | 5 => ⟨0, 0, -1⟩

/-- Entry `i` of `Chunk::get_surrounding_blocks_of` (chunk.rs
180..199) when the chunk's blocks are generated: the block at the
offset position if it lies inside the chunk, else `none`. -/
def surroundingBlockAt (blocks : List Block) (x y z : Int) (i : Fin 6) :
    Option Block :=
  let o := sideOffset i
  let xp := o.x + x
  let yp := o.y + y
  let zp := o.z + z
  if 0 ≤ xp ∧ xp < 16 ∧ 0 ≤ yp ∧ yp < 16 ∧ 0 ≤ zp ∧ zp < 16 then
    blocks.get? (blockIndex xp.toNat yp.toNat zp.toNat)
  else none

/-- The `rel_pos` match of `Chunk::gen_block_vis` (chunk.rs 237..244):
the chunk-relative position queried in the adjacent chunk when the
neighbouring position falls outside this chunk. -/
def relPosFor (i : Fin 6) (x y z : Nat) : I3 :=
  match i with
  | 0 => ⟨1, (y : Int), (z : Int)⟩
  | 1 => ⟨((CHUNK_SIZE - 1 : Nat) : Int), (y : Int), (z : Int)⟩
  | 2 => ⟨(x : Int), 1, (z : Int)⟩
  | 3 => ⟨(x : Int), ((CHUNK_SIZE - 1 : Nat) : Int), (z : Int)⟩
  | 4 => ⟨(x : Int), (y : Int), 1⟩
  | 5 => ⟨(x : Int), (y : Int), ((CHUNK_SIZE - 1 : Nat) : Int)⟩

/-- The loop body of `Chunk::gen_block_vis` for one side (chunk.rs
231..257).  `adjacent i = none` means the adjacent chunk is absent
from the snapshot; `adjacent i = some nb` passes that chunk's
(possibly still ungenerated) block vector to `get_block_at`.  A face
whose neighbour lies in an absent or ungenerated chunk defaults to not
visible. -/
def faceVis (blocks : List Block)
    (adjacent : Fin 6 → Option (Option (List Block))) (x y z : Nat)
    (i : Fin 6) : Bool :=
  match surroundingBlockAt blocks x y z i with
  | some b => b.is_translucent
  | none =>
    let rp := relPosFor i x y z
    let b : Option Block :=
      match adjacent i with
      | some nb => getBlockAt nb rp.x rp.y rp.z
      | none => none
    match b with
    | some b => b.is_translucent
    | none => false

/-- `BlockSideVisibility::new(false)`: all faces invisible (modelled
from the spec: a fresh 6-bit mask). -/
def sideVisNone : SideVis := ⟨false, false, false, false, false, false⟩

/-- The visibility record `Chunk::gen_block_vis` computes for one
non-`Air` voxel (chunk.rs 228..259): each of the 6 sides is set once,
in index order. -/
def voxelVis (blocks : List Block)
    (adjacent : Fin 6 → Option (Option (List Block))) (x y z : Nat) : SideVis :=
  ⟨faceVis blocks adjacent x y z 0, faceVis blocks adjacent x y z 1,
   faceVis blocks adjacent x y z 2, faceVis blocks adjacent x y z 3,
   faceVis blocks adjacent x y z 4, faceVis blocks adjacent x y z 5⟩

/-- The visibility vector computed by `Chunk::gen_block_vis` (chunk.rs
220..260): one record per `block_iterator()` position paired with the
stored block, `Air` voxels getting the all-invisible record. -/
def computeVis (blocks : List Block)
    (adjacent : Fin 6 → Option (Option (List Block))) : List SideVis :=
  (blockIter.zip blocks).map fun qb =>
    if qb.2 = Block.Air then sideVisNone
    else voxelVis blocks adjacent qb.1.1 qb.1.2.1 qb.1.2.2

/-- An all-`Stone` chunk: every voxel is non-empty. -/
def ownStone : List Block := List.replicate CHUNK_LENGTH Block.Stone

/-- The generated block vector of the adjacent chunk in the +x
direction for the C7 failing input: all `Air` except the voxel at
chunk-relative position `(1, 0, 0)` (flat index 256), which is
`Stone`.  Its boundary layer `x = 0` is entirely `Air`. -/
def rightBlocks : List Block :=
  (List.replicate CHUNK_LENGTH Block.Air).set (blockIndex 1 0 0) Block.Stone

/-- An adjacency snapshot with only the +x neighbour loaded and
generated. -/
def adjRightOnly : Fin 6 → Option (Option (List Block)) :=
  fun i => if i = 0 then some (some rightBlocks) else none

/-- C7 fails on the code: the voxel at `(15, 0, 0)` of an all-`Stone`
chunk has its +x neighbour across the chunk boundary; the wrapped
position in the adjacent chunk is `(0, 0, 0)`, which holds translucent
`Air`, so the claim says the face is visible.  The code instead reads
chunk-relative `(1, 0, 0)` of the adjacent chunk (`rel_pos` is `[1, y,
z]` rather than `[0, y, z]`, chunk.rs 238), finds `Stone`, and marks
the face not visible. -/
theorem vis_boundary_wrong_layer_eval :
    faceVis ownStone adjRightOnly 15 0 0 0 = false ∧
    getBlockAt (some rightBlocks) 0 0 0 = some Block.Air ∧
    Block.Air.is_translucent = true ∧
    getBlockAt (some rightBlocks) 1 0 0 = some Block.Stone ∧
    ownStone.get? (blockIndex 15 0 0) = some Block.Stone := by
  refine ⟨rfl, rfl, rfl, rfl, rfl⟩

/-! ### The sliding window (chunkedterrain.rs) -/

/-- A shared chunk handle (`Arc<Chunk>`) as seen by the window logic:
its identity and its guarded state.  The heavy per-chunk data plays no
role in the window claims. -/
structure ChunkRef where
  chunk_id : I3
  state : ChunkState
deriving DecidableEq

/-- `make_new_chunk` (chunkedterrain.rs 272..276) followed by
`Chunk::new` (chunk.rs 66..78): a fresh chunk starts at stage
`ChunkGen` with progress `Waiting`. -/
def makeNewChunk (chunk_id : I3) : ChunkRef :=
  ⟨chunk_id, ⟨.ChunkGen, .Waiting⟩⟩

/-- A Rust half-open integer range `a..b` as a list (empty when
`b ≤ a`). -/
def intRange (a b : Int) : List Int :=
  (List.range (b - a).toNat).map fun (i : Nat) => a + (i : Int)

/-- The horizontal key sequence `iproduct!(xlo..xhi, zlo..zhi)` used
for the column order (chunkedterrain.rs 35..37, 73..76, 80..83):
x ascending, then z ascending. -/
def prodXZ (lo hi : I3) : List (Int × Int) :=
  (intRange lo.x hi.x).flatMap fun cx =>
    (intRange lo.z hi.z).map fun cz => (cx, cz)

/-- The `ChunkedTerrain` fields the claims concern (chunkedterrain.rs
15..23): the column sequence (each column its chunk stack, vertical
ascending), the inclusive-exclusive `chunk_id_bounds` as `lo`/`hi`,
the last player chunk id and the render distance.  The worker/gc
channel endpoints are represented by the lists of values the
operations send on them. -/
structure TerrainModel where
  columns : List (List ChunkRef)
  lo : I3
  hi : I3
  player_last_chunk_id : I3
  render_distance : Nat
deriving DecidableEq

/-- A player position: the integer block part and the fractional part.
The fractional part's type is a parameter because the window code only
ever reads `block_int` (chunkedterrain.rs 27, 60). -/
structure PlayerPos (D : Type) where
  block_int : I3
  block_dec : D

/-- `block_int.map(|val| val / CHUNK_SIZE as i32)` (chunkedterrain.rs
27, 60); Rust `i32` division truncates toward zero, which is
`Int.tdiv`. -/
def playerChunkIdOf (p : I3) : I3 :=
  ⟨Int.tdiv p.x 16, Int.tdiv p.y 16, Int.tdiv p.z 16⟩

/-- `ChunkedTerrain::new` (chunkedterrain.rs 26..56): bounds are the
player chunk id ± render distance; one column per horizontal key in
`prodXZ` order, each filled with fresh chunks over the vertical
range. -/
def newTerrain (blockInt : I3) (renderDistance : Nat) : TerrainModel :=
  let pcid := playerChunkIdOf blockInt
  let r : Int := renderDistance
  let lo : I3 := ⟨pcid.x - r, pcid.y - r, pcid.z - r⟩
  let hi : I3 := ⟨pcid.x + r, pcid.y + r, pcid.z + r⟩
  { columns := (prodXZ lo hi).map fun q =>
      (intRange lo.y hi.y).map fun cy => makeNewChunk ⟨q.1, cy, q.2⟩,
    lo := lo, hi := hi,
    player_last_chunk_id := pcid, render_distance := renderDistance }

/-- `ChunkedTerrain::reuse_column` (chunkedterrain.rs 205..269) as a
pure function: given the old vertical bounds (from
`self.chunk_id_bounds`), the new vertical bounds, the column position
and the old chunk stack, it returns the rebuilt stack together with
the chunks sent to the `chunk_gc` collector, in send order; `none`
models the `unwrap`/`panic!` on a missing reused chunk.  The branch
condition is the source's `new_start < old_end || new_end >
old_start`; `red`, `green` and `blue` are the source's variable
names. -/
def reuseColumn (oldStart oldEnd newStart newEnd : Int) (cx cz : Int)
    (old : List ChunkRef) : Option (List ChunkRef × List ChunkRef) :=
  if newStart < oldEnd ∨ newEnd > oldStart then
    let red := (max (newStart - oldStart) 0).toNat
    if red ≤ old.length then
      let green := max oldStart newStart
      let blue := min oldEnd newEnd
      let rest := old.drop red
      let cnt := (blue - green).toNat
      if cnt ≤ rest.length then
        some ((intRange newStart green).map (fun cy => makeNewChunk ⟨cx, cy, cz⟩) ++
                rest.take cnt ++
                (intRange blue newEnd).map (fun cy => makeNewChunk ⟨cx, cy, cz⟩),
              old.take red ++ rest.drop cnt)
      else none
    else none
  else
    some ((intRange newStart newEnd).map (fun cy => makeNewChunk ⟨cx, cy, cz⟩), old)

/-- Strict lexicographic order on horizontal keys:
`[ax, az].cmp(&[bx, bz]) == Ordering::Less` (chunkedterrain.rs 84). -/
def keyLtB (a b : Int × Int) : Bool :=
  decide (a.1 < b.1) || (decide (a.1 = b.1) && decide (a.2 < b.2))

/-- The `while` skip loop of `update_player_position` (chunkedterrain.rs
84..89): consume old columns whose key sorts strictly before the next
required key, sending their chunks, in order, to the collector. -/
def skipOld (k : Int × Int) :
    List ((Int × Int) × List ChunkRef) →
    List ((Int × Int) × List ChunkRef) × List ChunkRef
  | [] => ([], [])
  | (ok, col) :: rest =>
    if keyLtB ok k then
      let r := skipOld k rest
      (r.1, col ++ r.2)
    else ((ok, col) :: rest, [])

/-- The main merge walk of `update_player_position` (chunkedterrain.rs
80..110) over the new key sequence: skip-and-evict old columns sorting
before the key, reuse a matching column via `reuse_column`, otherwise
build a fresh column over the new vertical range.  Old columns
remaining after the last new key are DROPPED with the iterator, as in
the source (they are not sent to the collector).  Results: the new
column list and the chunks sent to the collector, in order; `none`
propagates a `reuse_column` panic. -/
def slideCols (oldStartY oldEndY newStartY newEndY : Int) :
    List (Int × Int) → List ((Int × Int) × List ChunkRef) →
    Option (List (List ChunkRef) × List ChunkRef)
  | [], _ => some ([], [])
  | k :: ks, olds =>
    let so := skipOld k olds
    match so.1 with
    | (ok, ocol) :: orest =>
      if ok = k then
        match reuseColumn oldStartY oldEndY newStartY newEndY k.1 k.2 ocol with
        | none => none
        | some (ncol, g2) =>
          match slideCols oldStartY oldEndY newStartY newEndY ks orest with
          | none => none
          | some (cols, g3) => some (ncol :: cols, so.2 ++ g2 ++ g3)
      else
        match slideCols oldStartY oldEndY newStartY newEndY ks so.1 with
        | none => none
        | some (cols, g3) =>
          some ((intRange newStartY newEndY).map
                  (fun cy => makeNewChunk ⟨k.1, cy, k.2⟩) :: cols,
                so.2 ++ g3)
    | [] =>
      match slideCols oldStartY oldEndY newStartY newEndY ks [] with
      | none => none
      | some (cols, g3) =>
        some ((intRange newStartY newEndY).map
                (fun cy => makeNewChunk ⟨k.1, cy, k.2⟩) :: cols,
              so.2 ++ g3)

/-- `ChunkedTerrain::update_player_position` (chunkedterrain.rs
59..116): returns `some (changed, newTerrain, gcSent)` where `gcSent`
lists the chunks handed to the collector channel in send order, or
`none` on a panic.  If the player's chunk id is unchanged it returns
`false` having touched nothing and sent nothing. -/
def updatePlayerPosition {D : Type} (t : TerrainModel) (p : PlayerPos D) :
    Option (Bool × TerrainModel × List ChunkRef) :=
  let pcid := playerChunkIdOf p.block_int
  if pcid = t.player_last_chunk_id then some (false, t, [])
  else
    let r : Int := t.render_distance
    let lo : I3 := ⟨pcid.x - r, pcid.y - r, pcid.z - r⟩
    let hi : I3 := ⟨pcid.x + r, pcid.y + r, pcid.z + r⟩
    match slideCols t.lo.y t.hi.y lo.y hi.y (prodXZ lo hi)
        ((prodXZ t.lo t.hi).zip t.columns) with
    | none => none
    | some (cols, gc) =>
      some (true, { columns := cols, lo := lo, hi := hi,
                    player_last_chunk_id := pcid,
                    render_distance := t.render_distance }, gc)

/-- `ChunkedTerrain::get_chunk_at` (chunkedterrain.rs 135..154):
bounds check, then the arithmetic-offset lookup
`columns[rel_x * (hi.x - lo.x) + rel_z].chunks[rel_y]`. -/
def getChunkAt (t : TerrainModel) (chunk_id : I3) : Option ChunkRef :=
  if t.lo.x ≤ chunk_id.x ∧ chunk_id.x < t.hi.x ∧
      t.lo.y ≤ chunk_id.y ∧ chunk_id.y < t.hi.y ∧
      t.lo.z ≤ chunk_id.z ∧ chunk_id.z < t.hi.z then
    match t.columns.get?
        ((chunk_id.x - t.lo.x) * (t.hi.x - t.lo.x) + (chunk_id.z - t.lo.z)).toNat with
    | some col => col.get? (chunk_id.y - t.lo.y).toNat
    | none => none
  else none

/-- C10: when the new viewpoint's chunk id (computed from the integer
block position alone — the fractional part `p.block_dec` is an
arbitrary value of an arbitrary type and is never read) equals the
last-seen chunk id, `update_player_position` returns `false`, leaves
the terrain untouched, and sends nothing to the collector (and it
never touches the worker channel at all). -/
theorem update_noop_same_chunk {D : Type} (t : TerrainModel) (p : PlayerPos D)
    (h : playerChunkIdOf p.block_int = t.player_last_chunk_id) :
    updatePlayerPosition t p = some (false, t, []) := by
  simp [updatePlayerPosition, h]

/-- Witness for C10 at a concrete input: the player stays within chunk
`(0,0,0)`. -/
theorem update_noop_same_chunk_concrete :
    updatePlayerPosition (newTerrain ⟨0, 0, 0⟩ 1)
        (⟨⟨1, 1, 1⟩, ()⟩ : PlayerPos Unit) =
      some (false, newTerrain ⟨0, 0, 0⟩ 1, []) :=
  update_noop_same_chunk (newTerrain ⟨0, 0, 0⟩ 1) ⟨⟨1, 1, 1⟩, ()⟩ (by decide)

/-- C2 fails on the code: for the disjoint ranges old `[0, 2)` and new
`[4, 6)` (the new range lies strictly above the old one), the claim
requires both old cells to be evicted to the collector and two fresh
cells to be created, without a panic.  Because the overlap test at
chunkedterrain.rs 219 is `new_start < old_end || new_end > old_start`
(an OR where the overlap condition needs an AND), the code takes the
"overlap" branch, computes `red = 4`, and panics unwrapping the third
old chunk ("Reused chunk was none."), modelled as `none`.  The `else`
branch at 259..268, which implements exactly the claimed disjoint
behaviour, is unreachable for non-empty ranges. -/
theorem reuse_column_disjoint_panic_eval :
    reuseColumn 0 2 4 6 7 9
        [makeNewChunk ⟨7, 0, 9⟩, makeNewChunk ⟨7, 1, 9⟩] = none := by
  decide

/-- C4 fails on the code: with render distance 1 around chunk
`(0,0,0)`, moving the player to chunk `(-2,0,0)` slides the window so
that every old column key `{-1,0} × {-1,0}` sorts after every new key
`{-3,-2} × {-1,0}`.  The merge walk only evicts old columns sorting
BEFORE a new key, so the update completes (returns `true`) having sent
nothing at all to the collector, and the old cells (witnessed by the
cell at `(-1,-1,-1)`) are in neither the new window nor the collector
list: they are dropped inline with the leftover iterator. -/
theorem slide_negative_dir_drops_columns_eval :
    ((updatePlayerPosition (newTerrain ⟨0, 0, 0⟩ 1)
          (⟨⟨-32, 0, 0⟩, ()⟩ : PlayerPos Unit)).map
        fun r => (r.1, r.2.2,
          decide (makeNewChunk ⟨-1, -1, -1⟩ ∈ r.2.1.columns.flatten))) =
      some (true, ([] : List ChunkRef), false) ∧
    makeNewChunk ⟨-1, -1, -1⟩ ∈ (newTerrain ⟨0, 0, 0⟩ 1).columns.flatten := by
  refine ⟨by decide, by decide⟩

/-- C9 fails on the code: starting from a fresh window of render
distance 1 around chunk `(0,0,0)`, sliding the viewpoint down to block
`(0,-48,0)` (chunk `(0,-3,0)`, a vertically disjoint range) and then
back up to `(0,0,0)` reaches — with no panic — a state in which
`get_chunk_at((-1, 0, -1))` passes the bounds check and returns a
chunk whose stored id is `(-1, -1, -1)`, not the queried coordinate:
the arithmetic-offset lookup no longer agrees with the stored ids.
(Root cause: the disjoint slide's OR-condition bug in `reuse_column`
leaves a column holding three chunks whose ids start below the
window's vertical base.) -/
theorem get_chunk_at_mismatch_eval :
    ((updatePlayerPosition (newTerrain ⟨0, 0, 0⟩ 1)
          (⟨⟨0, -48, 0⟩, ()⟩ : PlayerPos Unit)).bind
        fun r1 => (updatePlayerPosition r1.2.1
            (⟨⟨0, 0, 0⟩, ()⟩ : PlayerPos Unit)).bind
          fun r2 => getChunkAt r2.2.1 ⟨-1, 0, -1⟩) =
      some (makeNewChunk ⟨-1, -1, -1⟩) ∧
    (makeNewChunk ⟨-1, -1, -1⟩).chunk_id ≠ (⟨-1, 0, -1⟩ : I3) := by
  refine ⟨by decide, by decide⟩

/-! ### Indexing the block iterator (for C8) -/

/-- Indexing a flat-map whose pieces all have length `m`: position
`i * m + j` with `j < m` lands at offset `j` of the `i`-th piece. -/
theorem get?_flatMap_const {α β : Type} (f : α → List β) (m : Nat)
    (hf : ∀ a, (f a).length = m) :
    ∀ (l : List α) (i j : Nat), j < m →
      (l.flatMap f).get? (i * m + j) = (l.get? i).bind fun a => (f a).get? j := by
  intro l
  induction l with
  | nil => intro i j _; simp
  | cons a l ih =>
    intro i j hj
    cases i with
    | zero =>
      simp only [List.flatMap_cons, Nat.zero_mul, Nat.zero_add]
      rw [List.get?_append (by rw [hf a]; exact hj)]
      simp
    | succ i =>
      simp only [List.flatMap_cons]
      rw [List.get?_append_right (by rw [hf a, Nat.succ_mul]; omega)]
      have harith : (i + 1) * m + j - (f a).length = i * m + j := by
        rw [hf a, Nat.succ_mul]; omega
      rw [harith, ih i j hj]
      simp

/-- Indexing `intRange`. -/
theorem intRange_get? (a b : Int) (k : Nat) (hk : k < (b - a).toNat) :
    (intRange a b).get? k = some (a + k) := by
  rw [intRange, List.get?_map, List.get?_range hk]
  rfl

/-- The length of a flat-map whose pieces all have length `m`. -/
theorem length_flatMap_const {α β : Type} (f : α → List β) (m : Nat)
    (hf : ∀ a, (f a).length = m) :
    ∀ l : List α, (l.flatMap f).length = l.length * m := by
  intro l
  induction l with
  | nil => simp
  | cons a l ih =>
    simp only [List.flatMap_cons, List.length_append, List.length_cons, hf, ih]
    ring

/-- One y-z plane of the block iterator has 256 entries. -/
theorem innerPlaneLength (x : Nat) :
    ((List.range CHUNK_SIZE).flatMap fun y =>
      (List.range CHUNK_SIZE).map fun z => (x, y, z)).length = 256 := by
  rw [length_flatMap_const _ 16 (fun b => by simp [CHUNK_SIZE])]
  decide

/-- The `block_iterator()` list at flat index `blockIndex x y z` is
exactly the position `(x, y, z)`. -/
theorem blockIter_get? (x y z : Nat) (hx : x < 16) (hy : y < 16) (hz : z < 16) :
    blockIter.get? (blockIndex x y z) = some (x, y, z) := by
  have hidx : blockIndex x y z = x * 256 + (y * 16 + z) := by
    simp only [blockIndex, CHUNK_SIZE]; ring
  rw [blockIter, hidx,
    get?_flatMap_const _ 256 innerPlaneLength _ x (y * 16 + z) (by omega)]
  have hxr : (List.range CHUNK_SIZE).get? x = some x := List.get?_range hx
  rw [hxr]
  simp only [Option.some_bind]
  have hinner2 : ∀ b : Nat,
      ((List.range CHUNK_SIZE).map fun c => (x, b, c)).length = 16 := by
    intro b
    simp [CHUNK_SIZE]
  rw [get?_flatMap_const _ 16 hinner2 _ y z (by omega)]
  have hyr : (List.range CHUNK_SIZE).get? y = some y := List.get?_range hy
  rw [hyr]
  have hzr : (List.range CHUNK_SIZE).get? z = some z := List.get?_range hz
  simp only [Option.some_bind, List.get?_map, hzr]
  rfl

/-- The length of the block iterator is the full chunk volume. -/
theorem blockIter_length : blockIter.length = 4096 := by
  rw [blockIter, length_flatMap_const _ 256 innerPlaneLength]
  decide

/-- C8: for every noise field, heightmap and chunk id, `Chunk::gen`
produces exactly `16^3 = 4096` blocks, and the block stored for
position `(x, y, z)` is: `Air` when the absolute height is strictly
above the heightmap value at the horizontal position; else `Air` (a
cave) when the noise sampled at the absolute position divided by 60
exceeds `0.5`; else `Grass` exactly at the surface height; else
`Stone`. -/
theorem gen_classification (noise : Rat × Rat × Rat → Rat)
    (hm : SurfaceHeightmap) (chunkId : I3) (x y z : Nat)
    (hx : x < 16) (hy : y < 16) (hz : z < 16) :
    (genBlocks noise hm chunkId).length = 4096 ∧
    (genBlocks noise hm chunkId).get? (blockIndex x y z) =
      some (
        if hm (x * 16 + z) < chunkId.y * 16 + (y : Int) then Block.Air
        else if 0.5 < noise (((chunkId.x * 16 + (x : Int) : Int) : Rat) / 60,
            ((chunkId.y * 16 + (y : Int) : Int) : Rat) / 60,
            ((chunkId.z * 16 + (z : Int) : Int) : Rat) / 60) then Block.Air
        else if (chunkId.y * 16 + (y : Int)) = hm (x * 16 + z) then Block.Grass
        else Block.Stone) := by
  constructor
  · simp [genBlocks, blockIter_length]
  · simp only [genBlocks]
    rw [List.get?_map, blockIter_get? x y z hx hy hz]
    rfl

/-- Witness for C8 at a concrete input: with the zero noise field and
the zero heightmap, position `(0, 0, 0)` of chunk `(0, 0, 0)` sits
exactly at the surface and is classified `Grass`; the array has 4096
entries. -/
theorem gen_classification_concrete :
    (genBlocks noiseZero hmZero ⟨0, 0, 0⟩).length = 4096 ∧
    (genBlocks noiseZero hmZero ⟨0, 0, 0⟩).get? (blockIndex 0 0 0) =
      some Block.Grass := by
  obtain ⟨h1, h2⟩ := gen_classification noiseZero hmZero ⟨0, 0, 0⟩ 0 0 0
    (by decide) (by decide) (by decide)
  refine ⟨h1, ?_⟩
  rw [h2]
  norm_num [noiseZero, hmZero]

/-! ### C6: the dispatcher scan (chunkedterrain.rs 156..203) -/

/-- The task kinds sent to the worker pool (`ChunkTaskType` lives in
the absent `chunk_worker_pool.rs`; the three variants and their use
are visible at chunkedterrain.rs 164..190). -/
inductive ChunkTaskType where
  | GenTerrain
  | GenBlockVis
  | GenVertices
deriving DecidableEq

/-- `Chunk::get_pending_stage` (chunk.rs 348..356): the stage, but
only when progress is `Waiting`. -/
def getPendingStage (c : ChunkRef) : Option ChunkStateStage :=
  match c.state.progress with
  | .Waiting => some c.state.stage
  | _ => none

/-- `Chunk::get_stage` (chunk.rs 358..360). -/
def getStage (c : ChunkRef) : ChunkStateStage := c.state.stage

/-- The per-chunk decision of `ChunkedTerrain::tick_progress`
(chunkedterrain.rs 160..194): which task, if any, the scan offers for
this chunk.  For `ChunkVisGen` the six face-adjacent chunks are looked
up through `get_chunk_at` at the `ADJACENT_OFFSETS`; the task is
withheld if any loaded one is still at stage `ChunkGen`. -/
def chunkTaskFor (t : TerrainModel) (c : ChunkRef) : Option ChunkTaskType :=
  match getPendingStage c with
  | some .ChunkGen => some .GenTerrain
  | some .ChunkVisGen =>
    let adjacent := (List.finRange 6).map fun i =>
      let o := sideOffset i
      getChunkAt t ⟨c.chunk_id.x + o.x, c.chunk_id.y + o.y, c.chunk_id.z + o.z⟩
    if adjacent.any fun oc =>
        match oc with
        | some c2 => decide (getStage c2 = .ChunkGen)
        | none => false
    then none
    else some .GenBlockVis
  | some .MeshGen => some .GenVertices
  | _ => none

/-- One chunk's treatment in the tick scan: `send_task`
(chunkedterrain.rs 199..203) reserves via `assign_if_waiting` and only
sends on success.  Returns the chunk's new state and the task actually
sent.  (The scan's in-place assignments commute with the rest of the
scan: the decision for a chunk reads only its own state and the
STAGES of other chunks, and assignment changes only PROGRESS, so the
sequential Rust loop equals this per-chunk map.) -/
def tickChunk (t : TerrainModel) (c : ChunkRef) : ChunkRef × Option ChunkTaskType :=
  match chunkTaskFor t c with
  | some ty =>
    let a := assignIfWaiting c.state
    ({ c with state := a.2 }, if a.1 then some ty else none)
  | none => (c, none)

/-- The tasks `ChunkedTerrain::tick_progress` emits to the worker
pool, paired with the chunk they target, in scan order. -/
def tickTasks (t : TerrainModel) : List (ChunkRef × ChunkTaskType) :=
  t.columns.flatten.filterMap fun c => ((tickChunk t c).2).map fun ty => (c, ty)

/-- The window after a full tick scan: every chunk that got a task is
now `TaskAssigned`. -/
def applyTick (t : TerrainModel) : TerrainModel :=
  { t with columns := t.columns.map fun col => col.map fun c => (tickChunk t c).1 }

/-- If a chunk's progress is anything but `Waiting` — in particular
`TaskAssigned` or `Processing` — the scan offers no task for it. -/
theorem chunkTaskFor_not_waiting (t : TerrainModel) (c : ChunkRef)
    (h : c.state.progress ≠ .Waiting) : chunkTaskFor t c = none := by
  unfold chunkTaskFor getPendingStage
  cases hpr : c.state.progress <;> simp_all

/-- C6: in every tick scan, (1) a task is emitted only for a chunk
whose progress was `Waiting` (the spec's `Idle`) and whose
`assign_if_waiting` reservation succeeds, never for a `Ready` chunk,
with the task kind fixed by the stage, and a `GenBlockVis` task only
when no loaded face-adjacent chunk is still at stage `ChunkGen`;
(2) a chunk already `TaskAssigned` or `Processing` is never
dispatched (so a re-entered scan cannot dispatch a cell twice);
(3) `Ready` chunks produce no task; (4) `ChunkGen` and `MeshGen`
chunks with progress `Waiting` are dispatched unconditionally. -/
theorem tick_dispatch_guards :
    (∀ (t : TerrainModel) (c : ChunkRef) (ty : ChunkTaskType),
      (c, ty) ∈ tickTasks t →
        c.state.progress = .Waiting ∧
        (assignIfWaiting c.state).1 = true ∧
        c.state.stage ≠ .Ready ∧
        (c.state.stage = .ChunkGen → ty = .GenTerrain) ∧
        (c.state.stage = .ChunkVisGen → ty = .GenBlockVis ∧
          ∀ (i : Fin 6) (c2 : ChunkRef),
            getChunkAt t ⟨c.chunk_id.x + (sideOffset i).x,
                c.chunk_id.y + (sideOffset i).y,
                c.chunk_id.z + (sideOffset i).z⟩ = some c2 →
            getStage c2 ≠ .ChunkGen) ∧
        (c.state.stage = .MeshGen → ty = .GenVertices)) ∧
    (∀ (t : TerrainModel) (c : ChunkRef),
      c.state.progress = .TaskAssigned ∨ c.state.progress = .Processing →
      chunkTaskFor t c = none) ∧
    (∀ (t : TerrainModel) (c : ChunkRef),
      c.state.stage = .Ready → chunkTaskFor t c = none) ∧
    (∀ (t : TerrainModel) (c : ChunkRef),
      c ∈ t.columns.flatten → c.state.progress = .Waiting →
      (c.state.stage = .ChunkGen → (c, ChunkTaskType.GenTerrain) ∈ tickTasks t) ∧
      (c.state.stage = .MeshGen → (c, ChunkTaskType.GenVertices) ∈ tickTasks t)) := by
  have hsome : ∀ (t : TerrainModel) (c : ChunkRef) (ty : ChunkTaskType),
      chunkTaskFor t c = some ty →
      c.state.progress = .Waiting ∧
      (c.state.stage = .ChunkGen → ty = .GenTerrain) ∧
      (c.state.stage = .ChunkVisGen → ty = .GenBlockVis ∧
        ∀ (i : Fin 6) (c2 : ChunkRef),
          getChunkAt t ⟨c.chunk_id.x + (sideOffset i).x,
              c.chunk_id.y + (sideOffset i).y,
              c.chunk_id.z + (sideOffset i).z⟩ = some c2 →
          getStage c2 ≠ .ChunkGen) ∧
      (c.state.stage = .MeshGen → ty = .GenVertices) ∧
      c.state.stage ≠ .Ready := by
    intro t c ty hc
    unfold chunkTaskFor getPendingStage at hc
    cases hpr : c.state.progress <;> rw [hpr] at hc <;> simp at hc
    cases hst : c.state.stage <;> rw [hst] at hc <;> simp at hc
    · exact ⟨rfl, fun _ => hc.symm, by simp [hst], by simp [hst], by simp [hst]⟩
    · obtain ⟨hany, hty⟩ := hc
      refine ⟨rfl, by simp [hst], fun _ => ⟨hty.symm, ?_⟩, by simp [hst], by simp [hst]⟩
      intro i c2 hget hstage
      have h6 := hany i
      rw [hget] at h6
      simp [hstage] at h6
    · exact ⟨rfl, by simp [hst], by simp [hst], fun _ => hc.symm, by simp [hst]⟩
  refine ⟨?_, ?_, ?_, ?_⟩
  · intro t c ty hmem
    rw [tickTasks, List.mem_filterMap] at hmem
    obtain ⟨c', _, heq⟩ := hmem
    rcases htc : (tickChunk t c').2 with _ | ty'
    · rw [htc] at heq; simp at heq
    · rw [htc] at heq
      simp at heq
      obtain ⟨hc', hty'⟩ := heq
      subst hc'
      subst hty'
      unfold tickChunk at htc
      rcases hct : chunkTaskFor t c' with _ | ty0
      · rw [hct] at htc; simp at htc
      · rw [hct] at htc
        simp at htc
        obtain ⟨hw, h2, h3, h4, h5⟩ := hsome t c' ty0 hct
        have hassign : (assignIfWaiting c'.state).1 = true := by
          unfold assignIfWaiting
          rw [hw]
        rw [hassign] at htc
        simp at htc
        subst htc
        exact ⟨hw, hassign, h5, h2, h3, h4⟩
  · intro t c hpr
    apply chunkTaskFor_not_waiting
    rcases hpr with h | h <;> rw [h] <;> simp
  · intro t c hst
    unfold chunkTaskFor getPendingStage
    cases hpr : c.state.progress <;> simp_all
  · intro t c hmem hw
    have hassign : assignIfWaiting c.state = (true, { c.state with progress := .TaskAssigned }) := by
      unfold assignIfWaiting
      rw [hw]
    constructor
    · intro hst
      have hct : chunkTaskFor t c = some .GenTerrain := by
        unfold chunkTaskFor getPendingStage
        rw [hw, hst]
      rw [tickTasks, List.mem_filterMap]
      refine ⟨c, hmem, ?_⟩
      rw [tickChunk, hct]
      simp [hassign]
    · intro hst
      have hct : chunkTaskFor t c = some .GenVertices := by
        unfold chunkTaskFor getPendingStage
        rw [hw, hst]
      rw [tickTasks, List.mem_filterMap]
      refine ⟨c, hmem, ?_⟩
      rw [tickChunk, hct]
      simp [hassign]

/-- Witness for C6 at a concrete input: in the fresh render-distance-1
window, the chunk at `(-1, -1, -1)` receives a `GenTerrain` task, and
the theorem yields that its progress was `Waiting`. -/
theorem tick_dispatch_guards_concrete :
    (makeNewChunk ⟨-1, -1, -1⟩).state.progress = ChunkStateProgress.Waiting :=
  (tick_dispatch_guards.1 (newTerrain ⟨0, 0, 0⟩ 1) (makeNewChunk ⟨-1, -1, -1⟩)
    ChunkTaskType.GenTerrain (by decide)).1

end Domcraft
